import Mathlib

/-!
Verification model of the zendag composition-resolution-and-graph-assembly
engine, shallowly embedded from `src/zendag/core.py` and
`src/zendag/config_utils.py`.

Paths are modelled as strings over `/`-separated components, matching the
relative POSIX paths the engine manipulates (`pathlib.Path` arithmetic with a
common current working directory, which cancels out of every
`absolute().relative_to(absolute())` computation).
-/

namespace ZenDag

/-- Splitting helper for `pathParts`: accumulates the current component in
reverse while scanning the character list. -/
def pathPartsAux : List Char → List Char → List String
  | [], cur => [String.mk cur.reverse]
  | c :: cs, cur =>
    if c = '/' then String.mk cur.reverse :: pathPartsAux cs []
    else pathPartsAux cs (c :: cur)

/-- Components of a relative POSIX path, as `pathlib.Path(p).parts` computes
them: empty components (from doubled or trailing slashes) and `.` components
are dropped. -/
def pathParts (p : String) : List String :=
  (pathPartsAux p.toList []).filter (fun s => s != "" && s != ".")

/-- Joining components back into a path string; the empty component list
renders as `.`, as `str(Path(p).relative_to(p))` does. -/
def joinParts : List String → String
  | [] => "."
  | [x] => x
  | x :: y :: xs => x ++ "/" ++ joinParts (y :: xs)

/-- Model of `Path(p).relative_to(base)` on component lists: succeeds exactly
when `base` is an initial segment of `p`, returning the remaining components;
otherwise `pathlib` raises `ValueError`, modelled as `none`. -/
def relativeTo : List String → List String → Option (List String)
  | p, [] => some p
  | [], _ :: _ => none
  | a :: p, b :: q => if a = b then relativeTo p q else none

/-- The `ARTIFACTS_ROOT` constant of `src/zendag/core.py` line 13 in its
default configuration (environment variable `ARTIFACTS_DIR` unset). -/
def ARTIFACTS_ROOT : String := "workbench"

/-- Embedding of `default_stage_dir_fn` (src/zendag/core.py lines 17-21). -/
def default_stage_dir_fn : Option String → String → String
  | none, name => ARTIFACTS_ROOT ++ "/" ++ name
  | some stage, name => ARTIFACTS_ROOT ++ "/" ++ stage ++ "/" ++ name

/-- Embedding of `default_configs_dir_fn` (src/zendag/core.py lines 25-29). -/
def default_configs_dir_fn : Option String → String
  | none => ARTIFACTS_ROOT
  | some stage => ARTIFACTS_ROOT ++ "/" ++ stage

/-- Embedding of the inner helper `wdir_p` of `configure_pipeline`
(src/zendag/core.py lines 95-100), in the run state where `wdir` has already
been defaulted to a string (which `configure_pipeline` guarantees before any
call, lines 86-87).  With `w = true` it is
`str(Path(p).absolute().relative_to(Path(wdir).absolute()))`, which succeeds
exactly when the components of `wdir` start the components of `p`; the
`ValueError` raised otherwise is modelled as `none`.  With `w = false` it is
`"projroot/" + p`. -/
def wdir_p (wdir : String) (p : String) (w : Bool) : Option String :=
  if w then (relativeTo (pathParts p) (pathParts wdir)).map joinParts
  else some ("projroot/" ++ p)

/-- Parameter trees as the resolution engine sees them: the tagged variant of
OmegaConf values occurring in composed configurations.  `outsMarker k` is the
interpolation resolved by the `outs` resolver registered at
src/zendag/core.py lines 162-164; `depsMarker k w` is the interpolation
resolved by the two-parameter `deps` resolver of lines 166-168, where
`w = none` models the one-argument call form (which fails, since the
registered lambda requires both `k` and `w`); `badInterp` models any other
unresolvable or malformed interpolation. -/
inductive CVal where
  | str : String → CVal
  | num : Int → CVal
  | boolv : Bool → CVal
  | listv : List CVal → CVal
  | dictv : List (String × CVal) → CVal
  | outsMarker : String → CVal
  | depsMarker : String → Option Bool → CVal
  | badInterp : CVal

mutual
/-- Embedding of `OmegaConf.resolve` under the two resolvers registered at
src/zendag/core.py lines 162-168: walks the tree in order, threading the
mutable accumulators `current_deps` and `current_outs`.  The `outs` resolver
appends `hydra_run_dir + "/" + k` to the outs accumulator and returns the bare
fragment `k` (the lambda is `current_outs.append(...) or k`); the `deps`
resolver appends `wdir_p(k, w)` and returns that same value.  Any resolver
exception (missing `w` argument, `wdir_p` failure) or other bad interpolation
makes the whole resolve call fail, modelled as `none`. -/
def resolveVal (rd : String) (wp : String → Bool → Option String) :
    CVal → List String → List String → Option (CVal × List String × List String)
  | .str s, ds, os => some (.str s, ds, os)
  | .num n, ds, os => some (.num n, ds, os)
  | .boolv b, ds, os => some (.boolv b, ds, os)
  | .outsMarker k, ds, os => some (.str k, ds, os ++ [rd ++ "/" ++ k])
  | .depsMarker _ none, _, _ => none
  | .depsMarker k (some w), ds, os =>
    match wp k w with
    | none => none
    | some p => some (.str p, ds ++ [p], os)
  | .badInterp, _, _ => none
  | .listv xs, ds, os =>
    match resolveValList rd wp xs ds os with
    | none => none
    | some (ys, ds2, os2) => some (.listv ys, ds2, os2)
  | .dictv xs, ds, os =>
    match resolveValDict rd wp xs ds os with
    | none => none
    | some (ys, ds2, os2) => some (.dictv ys, ds2, os2)

/-- Resolution of a list of values, left to right. -/
def resolveValList (rd : String) (wp : String → Bool → Option String) :
    List CVal → List String → List String →
    Option (List CVal × List String × List String)
  | [], ds, os => some ([], ds, os)
  | x :: xs, ds, os =>
    match resolveVal rd wp x ds os with
    | none => none
    | some (y, ds2, os2) =>
      match resolveValList rd wp xs ds2 os2 with
      | none => none
      | some (ys, ds3, os3) => some (y :: ys, ds3, os3)

/-- Resolution of a mapping, in insertion order of its entries. -/
def resolveValDict (rd : String) (wp : String → Bool → Option String) :
    List (String × CVal) → List String → List String →
    Option (List (String × CVal) × List String × List String)
  | [], ds, os => some ([], ds, os)
  | (k, x) :: xs, ds, os =>
    match resolveVal rd wp x ds os with
    | none => none
    | some (y, ds2, os2) =>
      match resolveValDict rd wp xs ds2 os2 with
      | none => none
      | some (ys, ds3, os3) => some ((k, y) :: ys, ds3, os3)
end

/-- Embedding of `sorted(list(set(l)))` (src/zendag/core.py lines 175-176):
the unique elements of `l` in ascending order. -/
def dedupSort (l : List String) : List String :=
  (l.dedup).insertionSort (· ≤ ·)

/-- One stage's resolution step (src/zendag/core.py lines 154-188): fresh
accumulators, resolve, then deduplicate and sort; on any resolution failure
both recorded lists are empty (lines 186-188) and the tree is left as the
composed configuration. -/
def resolveStage (rd : String) (wp : String → Bool → Option String) (cfg : CVal) :
    CVal × List String × List String :=
  match resolveVal rd wp cfg [] [] with
  | some (r, ds, os) => (r, dedupSort ds, dedupSort os)
  | none => (cfg, [], [])

mutual
/-- Declarative (spec-side) reading of the resolution walk, written to the
specification's wording for comparison with `resolveVal`: each tree node is
evaluated to its resolved value together with the dependency and output paths
it alone contributes, with no threaded accumulator.  The `outsMarker` equation
records the computed path `rd ++ "/" ++ k` while the resolved value is the
bare fragment `.str k`; the `depsMarker` equation records `wp k w` and
resolves to that same path. -/
def specEval (rd : String) (wp : String → Bool → Option String) :
    CVal → Option (CVal × List String × List String)
  | .str s => some (.str s, [], [])
  | .num n => some (.num n, [], [])
  | .boolv b => some (.boolv b, [], [])
  | .outsMarker k => some (.str k, [], [rd ++ "/" ++ k])
  | .depsMarker _ none => none
  | .depsMarker k (some w) =>
    match wp k w with
    | none => none
    | some p => some (.str p, [p], [])
  | .badInterp => none
  | .listv xs =>
    match specEvalList rd wp xs with
    | none => none
    | some (ys, d, o) => some (.listv ys, d, o)
  | .dictv xs =>
    match specEvalDict rd wp xs with
    | none => none
    | some (ys, d, o) => some (.dictv ys, d, o)

/-- Spec-side evaluation of a list of values, concatenating contributions. -/
def specEvalList (rd : String) (wp : String → Bool → Option String) :
    List CVal → Option (List CVal × List String × List String)
  | [] => some ([], [], [])
  | x :: xs =>
    match specEval rd wp x with
    | none => none
    | some (y, d1, o1) =>
      match specEvalList rd wp xs with
      | none => none
      | some (ys, d2, o2) => some (y :: ys, d1 ++ d2, o1 ++ o2)

/-- Spec-side evaluation of a mapping, concatenating contributions. -/
def specEvalDict (rd : String) (wp : String → Bool → Option String) :
    List (String × CVal) → Option (List (String × CVal) × List String × List String)
  | [] => some ([], [], [])
  | (k, x) :: xs =>
    match specEval rd wp x with
    | none => none
    | some (y, d1, o1) =>
      match specEvalDict rd wp xs with
      | none => none
      | some (ys, d2, o2) => some ((k, y) :: ys, d1 ++ d2, o1 ++ o2)
end

/-- Variant of `sorted(list(set(l)))` in which the iteration order of the
Python `set` is made explicit as a function `sigma` reordering the unique
elements before the sort; `sigma` models whatever enumeration order the hash
set uses in one particular run. -/
def dedupSortWithOrder (sigma : List String → List String) (l : List String) :
    List String :=
  (sigma l.dedup).insertionSort (· ≤ ·)

/-- Stage resolution with an explicit set-iteration order (see
`dedupSortWithOrder`); `resolveStage` is this with the identity order. -/
def resolveStageWithOrder (sigma : List String → List String) (rd : String)
    (wp : String → Bool → Option String) (cfg : CVal) :
    CVal × List String × List String :=
  match resolveVal rd wp cfg [] [] with
  | some (r, ds, os) => (r, dedupSortWithOrder sigma ds, dedupSortWithOrder sigma os)
  | none => (cfg, [], [])

mutual
/-- Structural serialization of a resolved tree, modelling the byte content
`hydra_zen.to_yaml` persists: a deterministic injective rendering of the
tree. -/
def serializeCVal : CVal → String
  | .str s => "str(" ++ s ++ ")"
  | .num n => "num(" ++ toString n ++ ")"
  | .boolv b => "bool(" ++ toString b ++ ")"
  | .listv xs => "[" ++ serializeCValList xs ++ "]"
  | .dictv xs => "map[" ++ serializeCValDict xs ++ "]"
  | .outsMarker k => "outsMarker(" ++ k ++ ")"
  | .depsMarker k w => "depsMarker(" ++ k ++ "," ++ toString w ++ ")"
  | .badInterp => "badInterp"

/-- Serialization of a list of values. -/
def serializeCValList : List CVal → String
  | [] => ""
  | x :: xs => serializeCVal x ++ ";" ++ serializeCValList xs

/-- Serialization of a mapping. -/
def serializeCValDict : List (String × CVal) → String
  | [] => ""
  | (k, x) :: xs => k ++ ":" ++ serializeCVal x ++ ";" ++ serializeCValDict xs
end

/-- One entry of the generated dvc.yaml `stages` mapping, as built at
src/zendag/core.py lines 206-217 (`wdir` is always present there because
`configure_pipeline` defaults it before the loop). `params` holds the
working-directory-relative path of the persisted per-stage config file. -/
structure DvcStage where
  cmd : String
  wdir : String
  deps : List String
  outs : List String
  params : List String
deriving DecidableEq

/-- Inputs of `configure_pipeline` (src/zendag/core.py lines 32-44), together
with the two oracles that close the model: `compose` stands for the external
hydra composition of lines 140-152 (`none` is a composition failure, which the
code logs and skips), and `writeOk` tells which `write_text` calls succeed
(`false` is an `OSError`). `store` enumerates the configuration names of a
stage group, in registry order. -/
structure PipelineArgs where
  stage_groups : Option (List (Option String))
  store : Option String → List String
  compose : Option String → String → Option CVal
  stage_dir_fn : Option String → String → String
  configs_dir_fn : Option String → String
  dvc_filename : String
  run_script : String
  manual_dvc : Option (List (String × DvcStage))
  wdir : Option String
  dvc_stage_name_fn : Option (Option String → String → String)
  writeOk : String → Bool

/-- Python f-string rendering of an optional group (`f"{g}"` prints `None` for
the null group). -/
def fmtOpt : Option String → String
  | none => "None"
  | some s => s

/-- Defaulting of `dvc_stage_name_fn` (src/zendag/core.py lines 80-81): the
grouped default is the f-string `f"{g}/{n}"`, the ungrouped default is the
bare name. -/
def effNameFn (a : PipelineArgs) : Option String → String → String :=
  match a.dvc_stage_name_fn with
  | some f => f
  | none =>
    match a.stage_groups with
    | some _ => fun g n => fmtOpt g ++ "/" ++ n
    | none => fun _ n => n

/-- Defaulting of `stage_groups` (src/zendag/core.py lines 83-84). -/
def effGroups (a : PipelineArgs) : List (Option String) :=
  match a.stage_groups with
  | some gs => gs
  | none => [none]

/-- Defaulting of `wdir` (src/zendag/core.py lines 86-87). -/
def effWdir (a : PipelineArgs) : String :=
  match a.wdir with
  | some w => w
  | none => a.stage_dir_fn none ""

/-- The generated stage command line (src/zendag/core.py lines 207-211). -/
def mkCmd (run_script cd name rd : String) : String :=
  "python -m " ++ run_script ++ " -cd " ++ cd ++ " -cn " ++ name ++
    " +zendag=base hydra.run.dir=\x27" ++ rd ++ "\x27"

/-- Python dict assignment `d[k] = v` on an insertion-ordered association
list: an existing key keeps its position and gets the new value, a new key is
appended. -/
def insertReplace {α : Type} (l : List (String × α)) (k : String) (v : α) :
    List (String × α) :=
  if l.any (fun p => p.1 == k) then l.map (fun p => if p.1 == k then (k, v) else p)
  else l ++ [(k, v)]

/-- Python dict lookup `d.get(k)` on an association list. -/
def lookupKey {α : Type} (l : List (String × α)) (k : String) : Option α :=
  (l.find? (fun p => p.1 == k)).map (fun p => p.2)

/-- Mutable state of the `configure_pipeline` loop: the successful file writes
in order (`trace`), the persisted per-stage config files with their serialized
content (`writtenConfigs`, modelling `write_text(hydra_zen.to_yaml(cfg))` at
src/zendag/core.py line 193; after a resolution failure the source writes the
partially resolved tree, which this model renders as the composed tree — no
claim depends on the failed stage's file content), the `dvc_stages` dict and
the returned `stage_config_paths` dict. -/
structure PState where
  trace : List String
  writtenConfigs : List (String × String)
  dvc_stages : List (String × DvcStage)
  stage_config_paths : List (String × String)
deriving DecidableEq

/-- The initial loop state. -/
def initPState : PState :=
  { trace := [], writtenConfigs := [], dvc_stages := [], stage_config_paths := [] }

/-- Body of the inner loop of `configure_pipeline` for one configuration name
(src/zendag/core.py lines 135-218).  A composition failure skips the stage
(`continue`); the `hydra_run_dir` computation of line 161 sits outside the
resolution try/except, so a `wdir_p` failure there aborts the whole run
(`none`); resolution failure inside the try is absorbed by `resolveStage`; a
failed config write skips the stage (`continue`, lines 195-200); the dvc
entry construction evaluates `wdir_p` twice more (lines 209 and 216) outside
any try, so failures there abort as well. -/
def processName (a : PipelineArgs) (wdir : String)
    (nameFn : Option String → String → String) (stage : Option String)
    (st : PState) (name : String) : Option PState :=
  match a.compose stage name with
  | none => some st
  | some cfg =>
    match wdir_p wdir (a.stage_dir_fn stage name) true with
    | none => none
    | some hydra_run_dir =>
      let res := resolveStage hydra_run_dir (wdir_p wdir) cfg
      let composed_config_path := a.configs_dir_fn stage ++ "/" ++ name ++ ".yaml"
      if a.writeOk composed_config_path then
        match wdir_p wdir (a.configs_dir_fn stage) true,
              wdir_p wdir composed_config_path true with
        | some cd, some pp =>
          let key := nameFn stage name
          some { trace := st.trace ++ [composed_config_path],
                 writtenConfigs :=
                   st.writtenConfigs ++ [(composed_config_path, serializeCVal res.1)],
                 stage_config_paths :=
                   insertReplace st.stage_config_paths key composed_config_path,
                 dvc_stages := insertReplace st.dvc_stages key
                   { cmd := mkCmd a.run_script cd name hydra_run_dir,
                     wdir := wdir,
                     deps := res.2.1,
                     outs := res.2.2,
                     params := [pp] } }
        | _, _ => none
      else some st

/-- Body of the outer loop for one stage group (src/zendag/core.py lines
123-135): an empty group is skipped with a warning, otherwise every name is
processed in registry order. -/
def processGroup (a : PipelineArgs) (wdir : String)
    (nameFn : Option String → String → String) (st : PState)
    (stage : Option String) : Option PState :=
  if (a.store stage).isEmpty then some st
  else (a.store stage).foldlM (processName a wdir nameFn stage) st

/-- Manual-entry merge as `OmegaConf.merge({"stages": base}, manual)` would
combine the `stages` mappings, the manually supplied entry winning on key
collision; src/zendag/core.py line 226 computes this merge but discards its
return value, so the merged mapping never reaches the written file. -/
def mergeStages (base : List (String × DvcStage))
    (manual : List (String × DvcStage)) : List (String × DvcStage) :=
  manual.foldl (fun acc kv => insertReplace acc kv.1 kv.2) base

/-- Outcome of a completed run: the successful writes in order, the built
`dvc_stages` dict, the content of the manifest file (`none` when its write
failed, in which case the file is simply not produced and the error is only
logged), and the returned `stage_config_paths`. -/
structure RunResult where
  trace : List String
  writtenConfigs : List (String × String)
  dvc_stages : List (String × DvcStage)
  manifest : Option (List (String × DvcStage))
  stage_config_paths : List (String × String)
deriving DecidableEq

/-- Embedding of `configure_pipeline` (src/zendag/core.py lines 32-235).  The
outer result is `none` when an uncaught exception aborts the run (a `wdir_p`
`ValueError` outside the try blocks); every handled error path returns
`some`.  The final manifest write (lines 220-233) happens once after the
loop; its content is `{"stages": dvc_stages}` — the `manual_dvc` merge result
of line 226 is discarded by the source, so it does not appear here — and a
write failure is caught and logged, the function still returning the
`stage_config_paths` dict. -/
def configure_pipeline (a : PipelineArgs) : Option RunResult :=
  match (effGroups a).foldlM (processGroup a (effWdir a) (effNameFn a)) initPState with
  | none => none
  | some st =>
    if a.writeOk a.dvc_filename then
      some { trace := st.trace ++ [a.dvc_filename],
             writtenConfigs := st.writtenConfigs,
             dvc_stages := st.dvc_stages,
             manifest := some st.dvc_stages,
             stage_config_paths := st.stage_config_paths }
    else
      some { trace := st.trace,
             writtenConfigs := st.writtenConfigs,
             dvc_stages := st.dvc_stages,
             manifest := none,
             stage_config_paths := st.stage_config_paths }

/-- Embedding of `deps_path` (src/zendag/config_utils.py lines 16-36).  The
`stage_dir_fn` parameter defaults to `default_stage_dir_fn` in the source;
callers may pass `None` explicitly, hence the `Option` here, with
`.error` modelling the two `ValueError` raises. -/
def deps_path (s : String) (input_stage input_name : Option String)
    (stage_dir_fn : Option (Option String → String → String)) :
    Except String String :=
  match input_stage with
  | some g =>
    match input_name with
    | none => .error "input_name must be specified if input_stage is provided."
    | some n =>
      match stage_dir_fn with
      | none => .error "stage_dir_fn must be provided if input_stage/input_name are used."
      | some f => .ok ("$\x7bdeps:" ++ (f (some g) n ++ "/") ++ s ++ "\x7d")
  | none => .ok ("$\x7bdeps:" ++ "" ++ s ++ "\x7d")

/-- Baseline concrete arguments for the example runs: one stage group `A`
holding one configuration `x` whose composed tree carries a single output
marker with fragment `data.csv`, all directory functions left at their
defaults, every write succeeding. -/
def exArgs : PipelineArgs :=
  { stage_groups := some [some "A"],
    store := fun g => if g = some "A" then ["x"] else [],
    compose := fun _ _ => some (.dictv [("output_path", .outsMarker "data.csv")]),
    stage_dir_fn := default_stage_dir_fn,
    configs_dir_fn := default_configs_dir_fn,
    dvc_filename := "dvc.yaml",
    run_script := "zendag.run",
    manual_dvc := none,
    wdir := none,
    dvc_stage_name_fn := none,
    writeOk := fun _ => true }


/-- Manifest node the example runs build for stage (A, y): under the default
policy the run directory is `A/y` relative to the working directory
`workbench/`. -/
def nodeAy : DvcStage :=
  { cmd := "python -m zendag.run -cd A -cn y +zendag=base hydra.run.dir=\x27A/y\x27",
    wdir := "workbench/",
    deps := [],
    outs := ["A/y/y.csv"],
    params := ["A/y.yaml"] }

/-- Arguments for the persist-failure run: two configurations `x` and `y` in
group `A`, each with one output marker; the write of x's config file and of
the final manifest both fail. -/
def c3args : PipelineArgs :=
  { exArgs with
    store := fun g => if g = some "A" then ["x", "y"] else [],
    compose := fun _ n => some (.dictv [("o", .outsMarker (n ++ ".csv"))]),
    writeOk := fun p => !(p == "workbench/A/x.yaml" || p == "dvc.yaml") }

/-- Loop state reached by the c3args run: stage x was skipped on its failed
write, stage y was fully processed. -/
def c3state : PState :=
  { trace := ["workbench/A/y.yaml"],
    writtenConfigs := [("workbench/A/y.yaml", "map[o:str(y.csv);]")],
    dvc_stages := [("A/y", nodeAy)],
    stage_config_paths := [("A/y", "workbench/A/y.yaml")] }

/-- Result of the c3args run: completed normally, manifest unwritten. -/
def c3expected : RunResult :=
  { trace := ["workbench/A/y.yaml"],
    writtenConfigs := [("workbench/A/y.yaml", "map[o:str(y.csv);]")],
    dvc_stages := [("A/y", nodeAy)],
    manifest := none,
    stage_config_paths := [("A/y", "workbench/A/y.yaml")] }

/-- Arguments for the duplicate-key run: both stages of group `A` are mapped
to the same manifest key `k` by the injected naming function; all writes
succeed. -/
def c4args : PipelineArgs :=
  { c3args with
    dvc_stage_name_fn := some (fun _ _ => "k"),
    writeOk := fun _ => true }

/-- Result of the duplicate-key run: one manifest entry under `k`, holding the
node of stage y — the later insertion silently replaced the earlier one. -/
def c4expected : RunResult :=
  { trace := ["workbench/A/x.yaml", "workbench/A/y.yaml", "dvc.yaml"],
    writtenConfigs := [("workbench/A/x.yaml", "map[o:str(x.csv);]"),
                       ("workbench/A/y.yaml", "map[o:str(y.csv);]")],
    dvc_stages := [("k", nodeAy)],
    manifest := some [("k", nodeAy)],
    stage_config_paths := [("k", "workbench/A/y.yaml")] }

/-- A manually supplied manifest entry. -/
def c5node : DvcStage :=
  { cmd := "echo manual", wdir := "workbench/", deps := [], outs := ["manual.out"],
    params := [] }

/-- Arguments for the manual-entries run: no stages at all, one manual entry
supplied; every write succeeds. -/
def c5args : PipelineArgs :=
  { exArgs with store := fun _ => [], manual_dvc := some [("manual", c5node)] }

/-- Arguments for the broken-resolution run: the composed tree of every stage
carries an unresolvable interpolation. -/
def c6args : PipelineArgs :=
  { exArgs with compose := fun _ _ => some (.dictv [("bad", .badInterp)]) }

/-- Arguments for the empty-pipeline run: the store holds no configuration for
any group. -/
def c9args : PipelineArgs :=
  { exArgs with store := fun _ => [] }

mutual
/-- The accumulator-threading walk of the source agrees with the declarative
per-node reading: the final accumulators are the initial ones extended by
exactly the paths the markers of the tree contribute, in walk order, and both
walks fail on exactly the same trees. -/
theorem resolveVal_eq_specEval (rd : String) (wp : String → Bool → Option String) :
    ∀ (v : CVal) (ds os : List String),
      resolveVal rd wp v ds os =
        (specEval rd wp v).map (fun t => (t.1, ds ++ t.2.1, os ++ t.2.2))
  | .str s, ds, os => by simp [resolveVal, specEval]
  | .num n, ds, os => by simp [resolveVal, specEval]
  | .boolv b, ds, os => by simp [resolveVal, specEval]
  | .outsMarker k, ds, os => by simp [resolveVal, specEval]
  | .depsMarker k none, ds, os => by simp [resolveVal, specEval]
  | .depsMarker k (some w), ds, os => by
    cases h : wp k w <;> simp [resolveVal, specEval, h]
  | .badInterp, ds, os => by simp [resolveVal, specEval]
  | .listv xs, ds, os => by
    rw [resolveVal, resolveValList_eq_specEvalList rd wp xs ds os]
    cases h : specEvalList rd wp xs with
    | none => simp [specEval, h]
    | some t => simp [specEval, h]
  | .dictv xs, ds, os => by
    rw [resolveVal, resolveValDict_eq_specEvalDict rd wp xs ds os]
    cases h : specEvalDict rd wp xs with
    | none => simp [specEval, h]
    | some t => simp [specEval, h]

/-- List version of `resolveVal_eq_specEval`. -/
theorem resolveValList_eq_specEvalList (rd : String) (wp : String → Bool → Option String) :
    ∀ (xs : List CVal) (ds os : List String),
      resolveValList rd wp xs ds os =
        (specEvalList rd wp xs).map (fun t => (t.1, ds ++ t.2.1, os ++ t.2.2))
  | [], ds, os => by simp [resolveValList, specEvalList]
  | x :: xs, ds, os => by
    rw [resolveValList, resolveVal_eq_specEval rd wp x ds os]
    cases h1 : specEval rd wp x with
    | none => simp [specEvalList, h1]
    | some t1 =>
      obtain ⟨y, d1, o1⟩ := t1
      simp only [Option.map]
      rw [resolveValList_eq_specEvalList rd wp xs (ds ++ d1) (os ++ o1)]
      cases h2 : specEvalList rd wp xs with
      | none => simp [specEvalList, h1, h2]
      | some t2 => simp [specEvalList, h1, h2, List.append_assoc]

/-- Mapping version of `resolveVal_eq_specEval`. -/
theorem resolveValDict_eq_specEvalDict (rd : String) (wp : String → Bool → Option String) :
    ∀ (xs : List (String × CVal)) (ds os : List String),
      resolveValDict rd wp xs ds os =
        (specEvalDict rd wp xs).map (fun t => (t.1, ds ++ t.2.1, os ++ t.2.2))
  | [], ds, os => by simp [resolveValDict, specEvalDict]
  | (k, x) :: xs, ds, os => by
    rw [resolveValDict, resolveVal_eq_specEval rd wp x ds os]
    cases h1 : specEval rd wp x with
    | none => simp [specEvalDict, h1]
    | some t1 =>
      obtain ⟨y, d1, o1⟩ := t1
      simp only [Option.map]
      rw [resolveValDict_eq_specEvalDict rd wp xs (ds ++ d1) (os ++ o1)]
      cases h2 : specEvalDict rd wp xs with
      | none => simp [specEvalDict, h1, h2]
      | some t2 => simp [specEvalDict, h1, h2, List.append_assoc]
end

/-- Deduplicating and sorting yields a strictly ascending list: sorted with no
duplicate entries. -/
theorem dedupSort_sorted_lt (l : List String) : (dedupSort l).Sorted (· < ·) := by
  have h1 : (dedupSort l).Sorted (· ≤ ·) := List.sorted_insertionSort _ _
  have h2 : (dedupSort l).Nodup :=
    ((List.perm_insertionSort (· ≤ ·) l.dedup).nodup_iff).mpr (List.nodup_dedup l)
  exact h1.lt_of_le h2

/-- Deduplicating and sorting is invariant under reordering of the input, the
key fact behind determinism of the recorded lists: Python set iteration order
never reaches the output of `sorted(list(set(l)))`. -/
theorem dedupSort_perm_eq {l₁ l₂ : List String} (h : List.Perm l₁ l₂) :
    dedupSort l₁ = dedupSort l₂ := by
  refine List.eq_of_perm_of_sorted ?_
    (List.sorted_insertionSort _ _) (List.sorted_insertionSort _ _)
  have p1 : List.Perm (List.insertionSort (· ≤ ·) l₁.dedup) l₁.dedup :=
    List.perm_insertionSort _ _
  have p2 : List.Perm l₁.dedup l₂.dedup := h.dedup
  have p3 : List.Perm l₂.dedup (List.insertionSort (· ≤ ·) l₂.dedup) :=
    (List.perm_insertionSort _ _).symm
  exact (p1.trans p2).trans p3

/-- Both recorded lists of a stage are strictly ascending, on the success path
by construction of `dedupSort`, on the failure path because they are empty. -/
theorem resolveStage_sorted (rd : String) (wp : String → Bool → Option String)
    (cfg : CVal) :
    ((resolveStage rd wp cfg).2.1).Sorted (· < ·) ∧
      ((resolveStage rd wp cfg).2.2).Sorted (· < ·) := by
  unfold resolveStage
  cases h : resolveVal rd wp cfg [] [] with
  | none => exact ⟨List.sorted_nil, List.sorted_nil⟩
  | some t => exact ⟨dedupSort_sorted_lt _, dedupSort_sorted_lt _⟩

/-- Dict assignment never changes the key sequence except by appending a fresh
key. -/
theorem insertReplace_map_fst {α : Type} (l : List (String × α)) (k : String) (v : α) :
    (insertReplace l k v).map Prod.fst =
      if l.any (fun p => p.1 == k) then l.map Prod.fst
      else l.map Prod.fst ++ [k] := by
  unfold insertReplace
  split
  · rw [List.map_map]
    apply List.map_congr_left
    intro p _
    by_cases h : p.1 = k
    · simp [h]
    · simp [Function.comp, h]
  · simp

/-- Dict assignment preserves distinctness of the key sequence. -/
theorem insertReplace_keys_nodup {α : Type} {l : List (String × α)}
    (h : (l.map Prod.fst).Nodup) (k : String) (v : α) :
    ((insertReplace l k v).map Prod.fst).Nodup := by
  rw [insertReplace_map_fst]
  split
  · exact h
  · next hany =>
    rw [List.nodup_append]
    refine ⟨h, List.nodup_singleton k, ?_⟩
    intro x hx hk
    rw [List.mem_singleton] at hk
    subst hk
    rw [List.mem_map] at hx
    obtain ⟨p, hp, hfst⟩ := hx
    have := List.any_eq_false.mp (Bool.not_eq_true _ ▸ hany) p hp
    simp [hfst] at this

/-- Every entry of a dict after an assignment either was already present or is
the assigned pair. -/
theorem mem_insertReplace {α : Type} {l : List (String × α)} {k : String} {v : α}
    {kv : String × α} (h : kv ∈ insertReplace l k v) : kv ∈ l ∨ kv = (k, v) := by
  unfold insertReplace at h
  split at h
  · rw [List.mem_map] at h
    obtain ⟨p, hp, hpe⟩ := h
    by_cases hk : p.1 = k
    · right
      rw [if_pos (by simp [hk])] at hpe
      exact hpe.symm
    · left
      rw [if_neg (by simp [hk])] at hpe
      exact hpe ▸ hp
  · rcases List.mem_append.mp h with h1 | h1
    · exact Or.inl h1
    · exact Or.inr (List.mem_singleton.mp h1)

/-- Looking up inside the replaced image of a dict that did contain the key
finds the new value. -/
theorem find?_map_replace {α : Type} (k : String) (v : α) :
    ∀ l : List (String × α),
      List.find? (fun p => p.1 == k)
          (l.map (fun p => if p.1 == k then (k, v) else p)) =
        if l.any (fun p => p.1 == k) then some (k, v) else none
  | [] => by simp
  | p :: l => by
    by_cases h : p.1 = k
    · simp [List.find?, h]
    · have hb : (p.1 == k) = false := by simp [h]
      rw [List.map_cons, if_neg (by simp [h] : ¬((p.1 == k) = true)),
        List.find?_cons_of_neg _ (by simp [h]), List.any_cons, hb]
      rw [Bool.false_or]
      exact find?_map_replace k v l

/-- Appending a pair to a dict that misses its key makes lookup find it. -/
theorem find?_append_fresh {α : Type} (k : String) (v : α) :
    ∀ l : List (String × α), l.any (fun p => p.1 == k) = false →
      List.find? (fun p => p.1 == k) (l ++ [(k, v)]) = some (k, v)
  | [], _ => by simp [List.find?]
  | p :: l, h => by
    rw [List.any_cons, Bool.or_eq_false_iff] at h
    simp only [List.cons_append, List.find?, h.1]
    exact find?_append_fresh k v l h.2

/-- Python dict assignment followed by lookup of the same key returns the
assigned value: the later insertion wins, silently. -/
theorem lookupKey_insertReplace {α : Type} (l : List (String × α)) (k : String)
    (v : α) : lookupKey (insertReplace l k v) k = some v := by
  unfold lookupKey insertReplace
  split
  · next hany => rw [find?_map_replace, if_pos hany]; rfl
  · next hany =>
    rw [find?_append_fresh k v l (Bool.not_eq_true _ ▸ hany)]
    rfl

/-- An `Option`-valued left fold preserves any invariant its step function
preserves. -/
theorem foldlM_option_inv {α β : Type} {P : β → Prop} {f : β → α → Option β}
    (hf : ∀ b x b2, f b x = some b2 → P b → P b2) :
    ∀ (l : List α) (b b2 : β), List.foldlM f b l = some b2 → P b → P b2
  | [], b, b2, h, hp => by
    simp only [List.foldlM_nil] at h
    cases h
    exact hp
  | x :: l, b, b2, h, hp => by
    rw [List.foldlM_cons] at h
    cases hx : f b x with
    | none => rw [hx] at h; cases h
    | some c =>
      rw [hx] at h
      exact foldlM_option_inv hf l c b2 h (hf b x c hx hp)

/-- An `Option`-valued left fold over an appended list is the sequential
composition of the folds over its parts. -/
theorem foldlM_option_append {α β : Type} (f : β → α → Option β) :
    ∀ (l1 l2 : List α) (b : β),
      List.foldlM f b (l1 ++ l2) =
        (List.foldlM f b l1).bind fun c => List.foldlM f c l2
  | [], l2, b => by simp
  | x :: l1, l2, b => by
    rw [List.cons_append, List.foldlM_cons, List.foldlM_cons]
    cases hx : f b x with
    | none => rfl
    | some c => exact foldlM_option_append f l1 l2 c

/-- Exhaustive description of one inner-loop iteration: either the stage is
skipped with the state unchanged (composition failure, or failed config
write), or every effectful step succeeded and the state gained exactly this
stage's write and its two dict entries, or an uncaught `wdir_p` error aborted
the run (excluded by the `some` hypothesis). -/
theorem processName_cases (a : PipelineArgs) (wdir : String)
    (nameFn : Option String → String → String) (stage : Option String)
    (st : PState) (name : String) (st2 : PState)
    (h : processName a wdir nameFn stage st name = some st2) :
    st2 = st ∨
      ∃ (cfg : CVal) (rd cd pp : String),
        a.compose stage name = some cfg ∧
        wdir_p wdir (a.stage_dir_fn stage name) true = some rd ∧
        a.writeOk (a.configs_dir_fn stage ++ "/" ++ name ++ ".yaml") = true ∧
        wdir_p wdir (a.configs_dir_fn stage) true = some cd ∧
        wdir_p wdir (a.configs_dir_fn stage ++ "/" ++ name ++ ".yaml") true = some pp ∧
        st2 = { trace := st.trace ++ [a.configs_dir_fn stage ++ "/" ++ name ++ ".yaml"],
                writtenConfigs := st.writtenConfigs ++
                  [(a.configs_dir_fn stage ++ "/" ++ name ++ ".yaml",
                    serializeCVal (resolveStage rd (wdir_p wdir) cfg).1)],
                dvc_stages := insertReplace st.dvc_stages (nameFn stage name)
                  { cmd := mkCmd a.run_script cd name rd,
                    wdir := wdir,
                    deps := (resolveStage rd (wdir_p wdir) cfg).2.1,
                    outs := (resolveStage rd (wdir_p wdir) cfg).2.2,
                    params := [pp] },
                stage_config_paths := insertReplace st.stage_config_paths
                  (nameFn stage name)
                  (a.configs_dir_fn stage ++ "/" ++ name ++ ".yaml") } := by
  unfold processName at h
  cases hc : a.compose stage name with
  | none => rw [hc] at h; exact Or.inl (Option.some.inj h).symm
  | some cfg =>
    rw [hc] at h
    cases hr : wdir_p wdir (a.stage_dir_fn stage name) true with
    | none => rw [hr] at h; cases h
    | some rd =>
      rw [hr] at h
      simp only at h
      cases hw : a.writeOk (a.configs_dir_fn stage ++ "/" ++ name ++ ".yaml") with
      | false => rw [hw] at h; simp at h; exact Or.inl h.symm
      | true =>
        rw [hw] at h
        simp only [if_true] at h
        cases hcd : wdir_p wdir (a.configs_dir_fn stage) true with
        | none => rw [hcd] at h; cases h
        | some cd =>
          rw [hcd] at h
          cases hpp : wdir_p wdir
              (a.configs_dir_fn stage ++ "/" ++ name ++ ".yaml") true with
          | none => rw [hpp] at h; cases h
          | some pp =>
            rw [hpp] at h
            refine Or.inr ⟨cfg, rd, cd, pp, rfl, rfl, rfl, rfl, rfl, ?_⟩
            exact (Option.some.inj h).symm

/-- One inner-loop iteration preserves distinctness of the manifest keys. -/
theorem processName_keys_nodup (a : PipelineArgs) (wdir : String)
    (nameFn : Option String → String → String) (stage : Option String)
    (st : PState) (name : String) (st2 : PState)
    (h : processName a wdir nameFn stage st name = some st2)
    (hp : (st.dvc_stages.map Prod.fst).Nodup) :
    (st2.dvc_stages.map Prod.fst).Nodup := by
  rcases processName_cases a wdir nameFn stage st name st2 h with
    rfl | ⟨cfg, rd, cd, pp, _, _, _, _, _, rfl⟩
  · exact hp
  · exact insertReplace_keys_nodup hp _ _

/-- One outer-loop iteration preserves distinctness of the manifest keys. -/
theorem processGroup_keys_nodup (a : PipelineArgs) (wdir : String)
    (nameFn : Option String → String → String) (st : PState)
    (stage : Option String) (st2 : PState)
    (h : processGroup a wdir nameFn st stage = some st2)
    (hp : (st.dvc_stages.map Prod.fst).Nodup) :
    (st2.dvc_stages.map Prod.fst).Nodup := by
  unfold processGroup at h
  split at h
  · cases h; exact hp
  · exact foldlM_option_inv
      (fun b x b2 hb => processName_keys_nodup a wdir nameFn stage b x b2 hb)
      (a.store stage) st st2 h hp

/-- Every completed run yields a manifest in which each stage key occurs
exactly once. -/
theorem pipeline_keys_nodup (a : PipelineArgs) (r : RunResult)
    (h : configure_pipeline a = some r) : (r.dvc_stages.map Prod.fst).Nodup := by
  unfold configure_pipeline at h
  cases hf : (effGroups a).foldlM
      (processGroup a (effWdir a) (effNameFn a)) initPState with
  | none => rw [hf] at h; cases h
  | some st =>
    rw [hf] at h
    have hst : (st.dvc_stages.map Prod.fst).Nodup :=
      foldlM_option_inv
        (fun b g b2 hb => processGroup_keys_nodup a (effWdir a) (effNameFn a) b g b2 hb)
        (effGroups a) initPState st hf (by simp [initPState])
    cases hw : a.writeOk a.dvc_filename with
    | false =>
      rw [hw] at h
      simp at h
      subst h
      exact hst
    | true =>
      rw [hw] at h
      simp at h
      subst h
      exact hst

/-- One inner-loop iteration only ever adds nodes whose recorded lists are
strictly ascending. -/
theorem processName_nodes_sorted (a : PipelineArgs) (wdir : String)
    (nameFn : Option String → String → String) (stage : Option String)
    (st : PState) (name : String) (st2 : PState)
    (h : processName a wdir nameFn stage st name = some st2)
    (hp : ∀ kv ∈ st.dvc_stages,
      (kv.2.deps).Sorted (· < ·) ∧ (kv.2.outs).Sorted (· < ·)) :
    ∀ kv ∈ st2.dvc_stages,
      (kv.2.deps).Sorted (· < ·) ∧ (kv.2.outs).Sorted (· < ·) := by
  rcases processName_cases a wdir nameFn stage st name st2 h with
    rfl | ⟨cfg, rd, cd, pp, _, _, _, _, _, rfl⟩
  · exact hp
  · intro kv hkv
    rcases mem_insertReplace hkv with hin | rfl
    · exact hp kv hin
    · exact resolveStage_sorted rd (wdir_p wdir) cfg

/-- One outer-loop iteration only ever adds nodes whose recorded lists are
strictly ascending. -/
theorem processGroup_nodes_sorted (a : PipelineArgs) (wdir : String)
    (nameFn : Option String → String → String) (st : PState)
    (stage : Option String) (st2 : PState)
    (h : processGroup a wdir nameFn st stage = some st2)
    (hp : ∀ kv ∈ st.dvc_stages,
      (kv.2.deps).Sorted (· < ·) ∧ (kv.2.outs).Sorted (· < ·)) :
    ∀ kv ∈ st2.dvc_stages,
      (kv.2.deps).Sorted (· < ·) ∧ (kv.2.outs).Sorted (· < ·) := by
  unfold processGroup at h
  split at h
  · cases h; exact hp
  · exact foldlM_option_inv
      (fun b x b2 hb => processName_nodes_sorted a wdir nameFn stage b x b2 hb)
      (a.store stage) st st2 h hp

/-- Processing an empty stage group leaves the state unchanged. -/
theorem processGroup_empty (a : PipelineArgs) (wdir : String)
    (nameFn : Option String → String → String) (st : PState)
    (stage : Option String) (h : a.store stage = []) :
    processGroup a wdir nameFn st stage = some st := by
  unfold processGroup
  rw [h]
  rfl

/-- C1, counterexample.  For stage (A, x) with the default policy,
`stage_dir(A, x) = "workbench/A/x"`, yet the path the engine appends to the
stage's outs accumulator is `"A/x/data.csv"` — `wdir_p` of the stage
directory prefixed onto the fragment, not the stage directory itself — and
the marker's resolved value in the persisted configuration is the bare
fragment `data.csv` (the registered resolver is
`lambda k: current_outs.append(hydra_run_dir + "/" + k) or k`, whose return
value is `k`), not the computed path.  Both halves of the claim fail on this
input. -/
theorem c1_counterexample :
    default_stage_dir_fn (some "A") "x" = "workbench/A/x" ∧
    configure_pipeline exArgs = some
      { trace := ["workbench/A/x.yaml", "dvc.yaml"],
        writtenConfigs := [("workbench/A/x.yaml", "map[output_path:str(data.csv);]")],
        dvc_stages := [("A/x",
          { cmd := "python -m zendag.run -cd A -cn x +zendag=base hydra.run.dir=\x27A/x\x27",
            wdir := "workbench/",
            deps := [],
            outs := ["A/x/data.csv"],
            params := ["A/x.yaml"] })],
        manifest := some [("A/x",
          { cmd := "python -m zendag.run -cd A -cn x +zendag=base hydra.run.dir=\x27A/x\x27",
            wdir := "workbench/",
            deps := [],
            outs := ["A/x/data.csv"],
            params := ["A/x.yaml"] })],
        stage_config_paths := [("A/x", "workbench/A/x.yaml")] } ∧
    (["A/x/data.csv"] : List String) ≠
      [default_stage_dir_fn (some "A") "x" ++ "/" ++ "data.csv"] ∧
    ("map[output_path:str(data.csv);]" : String) ≠
      "map[output_path:str(" ++ default_stage_dir_fn (some "A") "x" ++ "/" ++
        "data.csv" ++ ");]" :=
  ⟨rfl, rfl, by decide, by decide⟩

/-- C1 (amended).  For every stage (group, name), once `hydra_run_dir` is the
working-directory-relative form `wdir_p` of `stage_dir(group, name)`,
resolving the stage's tree agrees with the declarative evaluation `specEval`:
every output marker `outs(fragment)` contributes exactly the computed path
`hydra_run_dir ++ "/" ++ fragment` to the stage's outs accumulator, while its
resolved value in the persisted tree is the bare fragment, not the computed
path (the second conjunct exhibits the marker equation). -/
theorem c1_amended (sdf : Option String → String → String) (g : Option String)
    (n : String) (wdir rd : String)
    (h : wdir_p wdir (sdf g n) true = some rd) (v : CVal) (ds os : List String) :
    resolveVal rd (wdir_p wdir) v ds os =
      (specEval rd (wdir_p wdir) v).map (fun t => (t.1, ds ++ t.2.1, os ++ t.2.2)) ∧
    (∀ k, specEval rd (wdir_p wdir) (.outsMarker k) =
      some (.str k, [], [rd ++ "/" ++ k])) :=
  ⟨resolveVal_eq_specEval rd (wdir_p wdir) v ds os, fun _ => rfl⟩

/-- C1 (amended), witness at stage (A, x) with the default policy, default
working directory `workbench/` and fragment `data.csv`. -/
theorem c1_witness :
    resolveVal "A/x" (wdir_p "workbench/") (.outsMarker "data.csv") [] [] =
      (specEval "A/x" (wdir_p "workbench/") (.outsMarker "data.csv")).map
        (fun t => (t.1, [] ++ t.2.1, [] ++ t.2.2)) ∧
    specEval "A/x" (wdir_p "workbench/") (.outsMarker "data.csv") =
      some (.str "data.csv", [], ["A/x/data.csv"]) := by
  have h := c1_amended default_stage_dir_fn (some "A") "x" "workbench/" "A/x"
    (by decide) (.outsMarker "data.csv") [] []
  exact ⟨h.1, h.2 "data.csv"⟩

/-- C2, counterexample.  The claim's premise holds with the default policy:
`stage_dir(A, x) = "workbench/A/x"`.  A consumer stage whose tree references
the producer path `workbench/A/x/data.csv` through the two-argument dependency
marker records `deps = ["A/x/data.csv"]` (the `wdir_p`-relativized path under
the default working directory `workbench/`), not the claimed
`["workbench/A/x/data.csv"]`; and the one-argument marker form that the
`deps_path` helper of src/zendag/config_utils.py emits fails resolution
altogether (the registered resolver requires two arguments), recording
`deps = []`. -/
theorem c2_counterexample :
    default_stage_dir_fn (some "A") "x" = "workbench/A/x" ∧
    resolveStage "B/y" (wdir_p "workbench/")
        (.dictv [("input_path", .depsMarker "workbench/A/x/data.csv" (some true))]) =
      (.dictv [("input_path", .str "A/x/data.csv")], ["A/x/data.csv"], []) ∧
    (["A/x/data.csv"] : List String) ≠ ["workbench/A/x/data.csv"] ∧
    (resolveStage "B/y" (wdir_p "workbench/")
        (.dictv [("input_path", .depsMarker "workbench/A/x/data.csv" none)])).2.1 = [] :=
  ⟨rfl, rfl, by decide, rfl⟩

/-- C2 (amended).  When the consumer's two-argument dependency marker carries
the path built by prefixing the Directory Naming Policy's result for the
producer onto the fragment, resolving the consumer yields `deps = [q]` where
`q` is `wdir_p` of that constructed path (working-directory-relative when
`w = true`, `projroot/`-prefixed when `w = false`) — the policy-built path
reaches the recorded list only through the `wdir_p` indirection; and the
one-argument marker form emitted by the `deps_path` helper fails resolution,
recording `deps = []`. -/
theorem c2_amended (sdf : Option String → String → String) (A : Option String)
    (x frag : String) (w : Bool) (wdir rd fld q : String)
    (h : wdir_p wdir (sdf A x ++ "/" ++ frag) w = some q) :
    resolveStage rd (wdir_p wdir)
        (.dictv [(fld, .depsMarker (sdf A x ++ "/" ++ frag) (some w))]) =
      (.dictv [(fld, .str q)], [q], []) ∧
    (resolveStage rd (wdir_p wdir)
        (.dictv [(fld, .depsMarker (sdf A x ++ "/" ++ frag) none)])).2.1 = [] := by
  constructor
  · have hv : resolveVal rd (wdir_p wdir)
        (.dictv [(fld, .depsMarker (sdf A x ++ "/" ++ frag) (some w))]) [] [] =
        some (.dictv [(fld, .str q)], [q], []) := by
      simp [resolveVal, resolveValDict, h]
    unfold resolveStage
    rw [hv]
    rfl
  · rfl

/-- C2 (amended), witness: producer (A, x) under the default policy, fragment
`data.csv`, default working directory `workbench/`, marker flag `w = true`. -/
theorem c2_witness :
    resolveStage "B/y" (wdir_p "workbench/")
        (.dictv [("input_path",
          .depsMarker (default_stage_dir_fn (some "A") "x" ++ "/" ++ "data.csv")
            (some true))]) =
      (.dictv [("input_path", .str "A/x/data.csv")], ["A/x/data.csv"], []) ∧
    (resolveStage "B/y" (wdir_p "workbench/")
        (.dictv [("input_path",
          .depsMarker (default_stage_dir_fn (some "A") "x" ++ "/" ++ "data.csv")
            none)])).2.1 = [] :=
  c2_amended default_stage_dir_fn (some "A") "x" "data.csv" true "workbench/"
    "B/y" "input_path" "A/x/data.csv" (by decide)

/-- C10.  The authoring helper `deps_path` raises `ValueError` exactly in the
two documented situations — a producer stage without a producer name, and a
producer pair without a `stage_dir_fn` — and otherwise returns the dependency
marker string built from the optional producer-directory part: empty when no
producer stage is named, `stage_dir_fn(input_stage, input_name) + "/"`
otherwise.  The four equations cover all argument shapes, so together they are
the claimed exact characterization. -/
theorem c10_deps_path_spec (s : String) (iname : Option String)
    (fn : Option (Option String → String → String)) (g n : String)
    (f : Option String → String → String) :
    deps_path s none iname fn = .ok ("$\x7bdeps:" ++ s ++ "\x7d") ∧
    deps_path s (some g) none fn =
      .error "input_name must be specified if input_stage is provided." ∧
    deps_path s (some g) (some n) none =
      .error "stage_dir_fn must be provided if input_stage/input_name are used." ∧
    deps_path s (some g) (some n) (some f) =
      .ok ("$\x7bdeps:" ++ (f (some g) n ++ "/") ++ s ++ "\x7d") :=
  ⟨rfl, rfl, rfl, rfl⟩


/-- C3, counterexample.  In the c3args run the write of stage x's resolved
configuration fails and the write of the final manifest fails, yet the run
does not abort: it returns normally (`some`), stage y — processed after the
failing write — appears fully in the built stages, and the manifest write
failure is merely recorded by leaving the file unwritten.  No `PersistError`
exists in the code: both failure sites log and proceed
(src/zendag/core.py lines 195-200 `continue`, lines 232-233 fall-through). -/
theorem c3_counterexample :
    configure_pipeline c3args = some c3expected ∧
    c3expected.dvc_stages.map Prod.fst = ["A/y"] ∧
    c3expected.manifest = none :=
  ⟨rfl, rfl, rfl⟩

/-- C3 (amended).  A failure writing a stage's resolved configuration causes
only that stage to be skipped — the loop state is returned unchanged and
processing continues with the next stage; a failure writing the final
manifest is logged and the run still completes normally, returning the
accumulated state with no manifest content. -/
theorem c3_amended :
    (∀ (a : PipelineArgs) (wdir : String)
        (nameFn : Option String → String → String) (stage : Option String)
        (st : PState) (name : String) (cfg : CVal) (rd : String),
      a.compose stage name = some cfg →
      wdir_p wdir (a.stage_dir_fn stage name) true = some rd →
      a.writeOk (a.configs_dir_fn stage ++ "/" ++ name ++ ".yaml") = false →
      processName a wdir nameFn stage st name = some st) ∧
    (∀ (a : PipelineArgs) (st : PState),
      (effGroups a).foldlM (processGroup a (effWdir a) (effNameFn a)) initPState =
        some st →
      a.writeOk a.dvc_filename = false →
      configure_pipeline a = some
        { trace := st.trace, writtenConfigs := st.writtenConfigs,
          dvc_stages := st.dvc_stages, manifest := none,
          stage_config_paths := st.stage_config_paths }) := by
  constructor
  · intro a wdir nameFn stage st name cfg rd hc hr hw
    simp only [processName, hc, hr, hw]
    rfl
  · intro a st hf hw
    simp only [configure_pipeline, hf, hw]
    rfl

/-- C3 (amended), witness: in the c3args run, the failing write of stage x's
config leaves the state untouched, and the failing manifest write still lets
the run return its accumulated state. -/
theorem c3_witness :
    processName c3args "workbench/" (effNameFn c3args) (some "A") initPState "x" =
      some initPState ∧
    configure_pipeline c3args = some
      { trace := c3state.trace, writtenConfigs := c3state.writtenConfigs,
        dvc_stages := c3state.dvc_stages, manifest := none,
        stage_config_paths := c3state.stage_config_paths } :=
  ⟨c3_amended.1 c3args "workbench/" (effNameFn c3args) (some "A") initPState "x"
      (.dictv [("o", .outsMarker "x.csv")]) "A/x" rfl rfl rfl,
    c3_amended.2 c3args c3state rfl rfl⟩

/-- C4, counterexample.  In the c4args run the injected naming function sends
both stages (A, x) and (A, y) to the manifest key `k`; the second insertion
silently replaces the first — the run completes without any error and the
manifest holds a single entry under `k`, the node of stage y.  No
`DuplicateStageKeyError` exists in the code (src/zendag/core.py line 206 is a
plain dict assignment). -/
theorem c4_counterexample :
    configure_pipeline c4args = some c4expected ∧
    c4expected.dvc_stages.map Prod.fst = ["k"] ∧
    lookupKey c4expected.dvc_stages "k" = some nodeAy ∧
    nodeAy.outs = ["A/y/y.csv"] ∧
    (["A/y/y.csv"] : List String) ≠ ["A/x/x.csv"] :=
  ⟨rfl, rfl, rfl, rfl, by decide⟩

/-- C4 (amended).  Each stage key occurs exactly once in any completed run's
built stages (dict semantics), but inserting a node under an existing key is
not an error: the insertion silently replaces the stored node, and a lookup
afterwards returns the newly inserted value. -/
theorem c4_amended :
    (∀ (a : PipelineArgs) (r : RunResult), configure_pipeline a = some r →
      (r.dvc_stages.map Prod.fst).Nodup) ∧
    (∀ (l : List (String × DvcStage)) (k : String) (v : DvcStage),
      lookupKey (insertReplace l k v) k = some v) :=
  ⟨fun a r h => pipeline_keys_nodup a r h,
    fun l k v => lookupKey_insertReplace l k v⟩

/-- C4 (amended), witness: the c4args run's single key `k` is trivially
duplicate-free, and re-inserting under `k` yields the new node on lookup. -/
theorem c4_witness :
    (c4expected.dvc_stages.map Prod.fst).Nodup ∧
    lookupKey (insertReplace [("k", c5node)] "k" nodeAy) "k" = some nodeAy :=
  ⟨c4_amended.1 c4args c4expected rfl,
    c4_amended.2 [("k", c5node)] "k" nodeAy⟩

/-- C5, code bug.  The caller of the c5args run supplies the manual manifest
entry `manual`; `OmegaConf.merge` at src/zendag/core.py line 226 computes the
merged mapping — modelled by `mergeStages`, under which the manual entry would
appear — but its return value is discarded, so the file that is written
contains only the engine-built stages and the manual entry is silently
dropped.  The docstring and the explicit `manual_dvc` parameter make the
merge the evident intent; computing it and ignoring the result is a slip. -/
theorem c5_code_bug :
    c5args.manual_dvc = some [("manual", c5node)] ∧
    configure_pipeline c5args = some
      { trace := ["dvc.yaml"], writtenConfigs := [], dvc_stages := [],
        manifest := some [], stage_config_paths := [] } ∧
    mergeStages [] [("manual", c5node)] = [("manual", c5node)] ∧
    some ([] : List (String × DvcStage)) ≠
      some (mergeStages [] [("manual", c5node)]) :=
  ⟨rfl, rfl, rfl, by decide⟩

/-- C6.  First conjunct: when a stage's tree fails resolution (any evaluation
error makes `resolveVal` return `none`), the stage is still emitted — the
loop continues with `some`, the partially usable node is inserted under the
stage's key with empty deps and outs, and the composed tree is still
persisted.  Second conjunct: the inner loop over configuration names is a
sequential fold, so the names after any stage — broken or not — are processed
from whatever state that stage left, never skipped; one broken interpolation
cannot abort unrelated stages, whose nodes are produced exactly as in
isolation. -/
theorem c6_resolution_failure_isolated :
    (∀ (a : PipelineArgs) (wdir : String)
        (nameFn : Option String → String → String) (stage : Option String)
        (st : PState) (name : String) (cfg : CVal) (rd cd pp : String),
      a.compose stage name = some cfg →
      wdir_p wdir (a.stage_dir_fn stage name) true = some rd →
      resolveVal rd (wdir_p wdir) cfg [] [] = none →
      a.writeOk (a.configs_dir_fn stage ++ "/" ++ name ++ ".yaml") = true →
      wdir_p wdir (a.configs_dir_fn stage) true = some cd →
      wdir_p wdir (a.configs_dir_fn stage ++ "/" ++ name ++ ".yaml") true = some pp →
      processName a wdir nameFn stage st name = some
        { trace := st.trace ++ [a.configs_dir_fn stage ++ "/" ++ name ++ ".yaml"],
          writtenConfigs := st.writtenConfigs ++
            [(a.configs_dir_fn stage ++ "/" ++ name ++ ".yaml", serializeCVal cfg)],
          dvc_stages := insertReplace st.dvc_stages (nameFn stage name)
            { cmd := mkCmd a.run_script cd name rd, wdir := wdir,
              deps := [], outs := [], params := [pp] },
          stage_config_paths := insertReplace st.stage_config_paths
            (nameFn stage name)
            (a.configs_dir_fn stage ++ "/" ++ name ++ ".yaml") }) ∧
    (∀ (a : PipelineArgs) (wdir : String)
        (nameFn : Option String → String → String) (stage : Option String)
        (ns1 ns2 : List String) (st : PState),
      List.foldlM (processName a wdir nameFn stage) st (ns1 ++ ns2) =
        (List.foldlM (processName a wdir nameFn stage) st ns1).bind
          (fun st2 => List.foldlM (processName a wdir nameFn stage) st2 ns2)) := by
  constructor
  · intro a wdir nameFn stage st name cfg rd cd pp hc hr hres hw hcd hpp
    have hrs : resolveStage rd (wdir_p wdir) cfg = (cfg, [], []) := by
      unfold resolveStage
      rw [hres]
    simp only [processName, hc, hr, hw, hcd, hpp, hrs, if_true]
  · intro a wdir nameFn stage ns1 ns2 st
    exact foldlM_option_append (processName a wdir nameFn stage) ns1 ns2 st

/-- C6, witness: in the c6args run every composed tree is unresolvable; stage
x is still emitted under key `A/x` with empty deps and outs, and folding the
loop over `["x"] ++ ["y"]` equals folding `["x"]` then `["y"]`. -/
theorem c6_witness :
    processName c6args "workbench/" (effNameFn c6args) (some "A") initPState "x" =
      some
        { trace := initPState.trace ++ ["workbench/A/x.yaml"],
          writtenConfigs := initPState.writtenConfigs ++
            [("workbench/A/x.yaml", serializeCVal (.dictv [("bad", .badInterp)]))],
          dvc_stages := insertReplace initPState.dvc_stages "A/x"
            { cmd := mkCmd "zendag.run" "A" "x" "A/x", wdir := "workbench/",
              deps := [], outs := [], params := ["A/x.yaml"] },
          stage_config_paths := insertReplace initPState.stage_config_paths "A/x"
            "workbench/A/x.yaml" } ∧
    List.foldlM (processName c6args "workbench/" (effNameFn c6args) (some "A"))
        initPState (["x"] ++ ["y"]) =
      (List.foldlM (processName c6args "workbench/" (effNameFn c6args) (some "A"))
          initPState ["x"]).bind
        (fun st2 =>
          List.foldlM (processName c6args "workbench/" (effNameFn c6args) (some "A"))
            st2 ["y"]) :=
  ⟨c6_resolution_failure_isolated.1 c6args "workbench/" (effNameFn c6args)
      (some "A") initPState "x" (.dictv [("bad", .badInterp)]) "A/x" "A" "A/x.yaml"
      rfl rfl rfl rfl rfl rfl,
    c6_resolution_failure_isolated.2 c6args "workbench/" (effNameFn c6args)
      (some "A") ["x"] ["y"] initPState⟩

/-- C7.  In every completed run, every node of the built stages carries deps
and outs lists that are strictly ascending — sorted with no duplicate
entries — whatever the input configuration referenced and however often:
successful resolution records `sorted(list(set(...)))` and failed resolution
records the empty lists. -/
theorem c7_sorted_nodup (a : PipelineArgs) (r : RunResult)
    (h : configure_pipeline a = some r) :
    ∀ kv ∈ r.dvc_stages,
      (kv.2.deps).Sorted (· < ·) ∧ (kv.2.outs).Sorted (· < ·) := by
  unfold configure_pipeline at h
  cases hf : (effGroups a).foldlM
      (processGroup a (effWdir a) (effNameFn a)) initPState with
  | none => rw [hf] at h; cases h
  | some st =>
    rw [hf] at h
    have hst : ∀ kv ∈ st.dvc_stages,
        (kv.2.deps).Sorted (· < ·) ∧ (kv.2.outs).Sorted (· < ·) :=
      foldlM_option_inv
        (fun b g b2 hb =>
          processGroup_nodes_sorted a (effWdir a) (effNameFn a) b g b2 hb)
        (effGroups a) initPState st hf (by simp [initPState])
    cases hw : a.writeOk a.dvc_filename with
    | false =>
      rw [hw] at h
      simp at h
      subst h
      exact hst
    | true =>
      rw [hw] at h
      simp at h
      subst h
      exact hst

/-- C7, witness: the single node of the c4args run has strictly ascending
(hence duplicate-free) deps and outs. -/
theorem c7_witness :
    (nodeAy.deps).Sorted (· < ·) ∧ (nodeAy.outs).Sorted (· < ·) :=
  c7_sorted_nodup c4args c4expected rfl ("k", nodeAy) (by simp [c4expected])

/-- C8.  Stage resolution is a deterministic function of the composed tree,
the directory policy and the stage key: even with the iteration order of the
Python hash set made explicit (any order-preserving-up-to-permutation
enumeration `sigma`), the resolved tree, its serialized byte content, and the
recorded deps and outs lists are identical across runs. -/
theorem c8_deterministic (sigma : List String → List String)
    (hs : ∀ l, List.Perm (sigma l) l) (rd : String)
    (wp : String → Bool → Option String) (cfg : CVal) :
    resolveStageWithOrder sigma rd wp cfg = resolveStage rd wp cfg ∧
    serializeCVal (resolveStageWithOrder sigma rd wp cfg).1 =
      serializeCVal (resolveStage rd wp cfg).1 := by
  have key : ∀ l, dedupSortWithOrder sigma l = dedupSort l := by
    intro l
    refine List.eq_of_perm_of_sorted ?_ (List.sorted_insertionSort _ _)
      (List.sorted_insertionSort _ _)
    have p1 : List.Perm (List.insertionSort (· ≤ ·) (sigma l.dedup)) (sigma l.dedup) :=
      List.perm_insertionSort _ _
    have p3 : List.Perm l.dedup (List.insertionSort (· ≤ ·) l.dedup) :=
      (List.perm_insertionSort _ _).symm
    exact (p1.trans (hs l.dedup)).trans p3
  have h1 : resolveStageWithOrder sigma rd wp cfg = resolveStage rd wp cfg := by
    cases hv : resolveVal rd wp cfg [] [] with
    | none => simp only [resolveStageWithOrder, resolveStage, hv]
    | some t =>
      obtain ⟨r, ds, os⟩ := t
      simp only [resolveStageWithOrder, resolveStage, hv, key]
  exact ⟨h1, by rw [h1]⟩

/-- C8, witness: with the set enumeration reversed, resolving a tree that
references the same output path twice still yields the same node data. -/
theorem c8_witness :
    resolveStageWithOrder List.reverse "A/x" (wdir_p "workbench/")
        (.listv [.outsMarker "b.csv", .outsMarker "a.csv", .outsMarker "b.csv"]) =
      resolveStage "A/x" (wdir_p "workbench/")
        (.listv [.outsMarker "b.csv", .outsMarker "a.csv", .outsMarker "b.csv"]) ∧
    serializeCVal (resolveStageWithOrder List.reverse "A/x" (wdir_p "workbench/")
        (.listv [.outsMarker "b.csv", .outsMarker "a.csv", .outsMarker "b.csv"])).1 =
      serializeCVal (resolveStage "A/x" (wdir_p "workbench/")
        (.listv [.outsMarker "b.csv", .outsMarker "a.csv", .outsMarker "b.csv"])).1 :=
  c8_deterministic List.reverse (fun l => List.reverse_perm l) "A/x"
    (wdir_p "workbench/")
    (.listv [.outsMarker "b.csv", .outsMarker "a.csv", .outsMarker "b.csv"])

/-- C9.  A run in which every stage group is empty still writes the manifest
file, exactly once (the trace holds exactly the one manifest write), with an
empty top-level stages mapping, and produces no other artifact. -/
theorem c9_empty_run (a : PipelineArgs)
    (h1 : ∀ g ∈ effGroups a, a.store g = [])
    (h2 : a.writeOk a.dvc_filename = true) :
    configure_pipeline a = some
      { trace := [a.dvc_filename], writtenConfigs := [], dvc_stages := [],
        manifest := some [], stage_config_paths := [] } := by
  have hfold : ∀ (gs : List (Option String)) (st : PState),
      (∀ g ∈ gs, a.store g = []) →
      List.foldlM (processGroup a (effWdir a) (effNameFn a)) st gs = some st := by
    intro gs
    induction gs with
    | nil => intro st _; rfl
    | cons g gs ih =>
      intro st hg
      rw [List.foldlM_cons,
        processGroup_empty a (effWdir a) (effNameFn a) st g (hg g (by simp))]
      exact ih st (fun g2 hg2 => hg g2 (by simp [hg2]))
  simp only [configure_pipeline, hfold (effGroups a) initPState h1, h2, if_true]
  rfl

/-- C9, witness: the c9args run writes exactly the empty manifest. -/
theorem c9_witness :
    configure_pipeline c9args = some
      { trace := [c9args.dvc_filename], writtenConfigs := [], dvc_stages := [],
        manifest := some [], stage_config_paths := [] } :=
  c9_empty_run c9args (fun g hg => rfl) rfl

end ZenDag
